import Mathlib

/-!
# Verification of the multiplayer trivia game client

A shallow embedding of the TypeScript sources of the trivia game
(`src/components/TriviaRoom.tsx`, `src/components/GameLobby.tsx`,
`src/types.ts`, `src/App.tsx`).

The room view (`TriviaRoom`) is modelled as a state structure `RoomState`
holding the React component state together with the remote records this
client writes (`dbPlayers`, `answers`).  The event handlers
(`startGame`, `submitAnswer`, `nextQuestion`, the timer effect) become
pure functions on `RoomState`; fallible persistence calls take explicit
`Bool` outcome parameters (the catch branch of the source shows a toast
and otherwise falls through).  The UI-level dynamics are collected into
a step relation `step`, with preconditions taken from the rendering
logic (which handler can actually fire in which view).

The lobby (`GameLobby`) is modelled as pure functions `createRoom` and
`joinRoom` on a record database `Db`.
-/

namespace Trivia

/-- Room status, `'waiting' | 'playing' | 'finished'` in `types.ts`. -/
inductive GameStatus where
  | waiting
  | playing
  | finished
deriving Repr, DecidableEq

/-- `User` from `types.ts` (`displayName` is optional). -/
structure User where
  id : String
  email : String
  displayName : Option String
deriving Repr, DecidableEq

/-- `Room` from `types.ts`. -/
structure Room where
  id : String
  name : String
  hostUserId : String
  status : GameStatus
  currentQuestionIndex : Nat
  createdAt : String
deriving Repr, DecidableEq

/-- `Player` from `types.ts`. -/
structure Player where
  id : String
  roomId : String
  userId : String
  displayName : String
  score : Int
deriving Repr, DecidableEq

/-- `Question` from `types.ts`. -/
structure Question where
  id : String
  question : String
  optionA : String
  optionB : String
  optionC : String
  optionD : String
  correctAnswer : String
  category : String
  difficulty : String
deriving Repr, DecidableEq

/-- The `gameAnswers` record created by `submitAnswer` (the `answeredAt`
field of the `GameAnswer` interface is not part of the create payload,
so it is omitted here). -/
structure GameAnswer where
  id : String
  roomId : String
  userId : String
  questionId : String
  selectedAnswer : String
  isCorrect : Bool
deriving Repr, DecidableEq

/-- A toast notification as produced by `useToast`; `variant` is
`"destructive"` for error toasts and `"default"` otherwise. -/
structure Toast where
  title : String
  description : String
  variant : String
deriving Repr, DecidableEq

/-- JavaScript `String.prototype.trim`: strip leading and trailing
whitespace.  Embedded on the character list so that it evaluates
definitionally. -/
def trimString (s : String) : String :=
  String.mk (((s.data.dropWhile Char.isWhitespace).reverse.dropWhile Char.isWhitespace).reverse)

/-- JavaScript `a || b` for an optional string `a`: the empty string is
falsy, so it also falls through to `b`. -/
def jsOr (a : Option String) (b : String) : String :=
  match a with
  | none => b
  | some s => if s = "" then b else s

/-- `user.displayName || user.email.split('@')[0]` as used when creating
player records in `GameLobby.tsx`. -/
def displayNameOf (u : User) : String :=
  jsOr u.displayName ((u.email.splitOn "@").headD "")

/-- The `TriviaRoom` component state (`useState` hooks), together with
the fixed props (`user`, `room`) and the remote records this client
writes.  `players` is the local snapshot loaded once by `loadGameData`;
`dbPlayers` is the remote `players` table, which `submitAnswer` updates
without refreshing the local snapshot. -/
structure RoomState where
  user : User
  room : Room
  players : List Player
  questions : List Question
  currentQuestion : Option Question
  gameStatus : GameStatus
  timeLeft : Int
  selectedAnswer : Option String
  hasAnswered : Bool
  showResults : Bool
  questionIndex : Nat
  dbPlayers : List Player
  answers : List GameAnswer
deriving Repr, DecidableEq

/-- The component state right after mount and `loadGameData`: the local
snapshot equals the remote players table, `currentQuestion` is the first
loaded question when there is one, and the remaining hooks hold their
`useState` initial values. -/
def initState (u : User) (r : Room) (ps : List Player) (qs : List Question) : RoomState :=
  { user := u
    room := r
    players := ps
    questions := qs
    currentQuestion := qs.head?
    gameStatus := GameStatus.waiting
    timeLeft := 15
    selectedAnswer := none
    hasAnswered := false
    showResults := false
    questionIndex := 0
    dbPlayers := ps
    answers := [] }

/-- `nextQuestion` from `TriviaRoom.tsx`: advance to
`questionIndex + 1`, or set the status to `finished` when that index
reaches the number of loaded questions. -/
def nextQuestion (s : RoomState) : RoomState :=
  let nextIndex := s.questionIndex + 1
  if s.questions.length ≤ nextIndex then
    { s with gameStatus := GameStatus.finished }
  else
    { s with
      questionIndex := nextIndex
      currentQuestion := s.questions[nextIndex]?
      selectedAnswer := none
      hasAnswered := false
      showResults := false
      timeLeft := 15 }

/-- One firing of the countdown in the timer effect:
`setTimeLeft(prev => prev - 1)`.  The effect schedules it only while
the game is playing, the timer is positive and the player has not
answered; those guards live in the step relation below. -/
def tickRun (s : RoomState) : RoomState :=
  { s with timeLeft := s.timeLeft - 1 }

/-- The payload of the `blink.db.rooms.update` call made by `startGame`. -/
structure RoomUpdate where
  roomId : String
  status : GameStatus
  currentQuestionIndex : Nat
deriving Repr, DecidableEq

/-- Result of running `startGame`: the new component state, the toasts
shown, and the list of room updates attempted against the store. -/
structure StartResult where
  state : RoomState
  toasts : List Toast
  updateAttempts : List RoomUpdate
deriving Repr, DecidableEq

/-- `startGame` from `TriviaRoom.tsx`.  `ok` is the outcome of the
`blink.db.rooms.update` call: on success the local state becomes
playing with a fresh timer, on failure the catch branch shows a
destructive toast and changes nothing. -/
def startGameRun (s : RoomState) (ok : Bool) : StartResult :=
  let u : RoomUpdate := { roomId := s.room.id, status := GameStatus.playing, currentQuestionIndex := 0 }
  if ok then
    { state := { s with gameStatus := GameStatus.playing, timeLeft := 15, questionIndex := 0 }
      toasts := [{ title := "Game Started!", description := "Good luck everyone!", variant := "default" }]
      updateAttempts := [u] }
  else
    { state := s
      toasts := [{ title := "Error", description := "Failed to start game", variant := "destructive" }]
      updateAttempts := [u] }

/-- `submitAnswer` from `TriviaRoom.tsx`.  The guard returns unchanged
when the player has already answered or there is no current question.
Otherwise the selection is stored locally, a `gameAnswers` record is
created (`createOk` is the outcome of that call; on failure the catch
branch only shows a toast), and on a correct answer the player record
found in the local snapshot has its remote score set to the snapshot
score plus 100 (`updateOk` is the outcome of that update). -/
def submitAnswer (s : RoomState) (answer newId : String) (createOk updateOk : Bool) : RoomState :=
  if s.hasAnswered then s
  else
    match s.currentQuestion with
    | none => s
    | some q =>
      let s1 := { s with selectedAnswer := some answer, hasAnswered := true }
      if createOk then
        let isCorrect := answer == q.correctAnswer
        let s2 := { s1 with
          answers := { id := newId, roomId := s.room.id, userId := s.user.id,
                       questionId := q.id, selectedAnswer := answer,
                       isCorrect := isCorrect } :: s1.answers }
        if isCorrect then
          match s.players.find? (fun p => p.userId == s.user.id) with
          | some cp =>
            if updateOk then
              { s2 with dbPlayers :=
                  s2.dbPlayers.map (fun p =>
                    if p.id == cp.id then { p with score := cp.score + 100 } else p) }
            else s2
          | none => s2
        else s2
      else s1

/-- The UI events that can reach the handlers of `TriviaRoom`. -/
inductive Event where
  | start (ok : Bool)
  | tick
  | submit (answer newId : String) (createOk updateOk : Bool)
  | expire
  | afterAnswer
deriving Repr, DecidableEq

/-- One UI step of the room view.  The preconditions come from the
rendering logic and the timer effect of `TriviaRoom.tsx`:
the Start Game button exists only in the waiting view; the countdown
fires only while playing with a positive timer and no answer yet; the
answer buttons are rendered only in the playing view; the expiry branch
of the timer effect fires whenever the timer is 0 and the player has
not answered, first showing results and three seconds later calling
`nextQuestion`; after a submission the scheduled timeouts show results
and then call `nextQuestion`. -/
inductive step : RoomState → Event → RoomState → Prop where
  | start (s : RoomState) (ok : Bool)
      (hw : s.gameStatus = GameStatus.waiting) :
      step s (Event.start ok) (startGameRun s ok).state
  | tick (s : RoomState)
      (hp : s.gameStatus = GameStatus.playing)
      (ht : 0 < s.timeLeft)
      (ha : s.hasAnswered = false) :
      step s Event.tick (tickRun s)
  | submit (s : RoomState) (answer newId : String) (createOk updateOk : Bool)
      (hp : s.gameStatus = GameStatus.playing) :
      step s (Event.submit answer newId createOk updateOk) (submitAnswer s answer newId createOk updateOk)
  | expire (s : RoomState)
      (ht : s.timeLeft = 0)
      (ha : s.hasAnswered = false) :
      step s Event.expire (nextQuestion { s with showResults := true })
  | afterAnswer (s : RoomState)
      (ha : s.hasAnswered = true) :
      step s Event.afterAnswer (nextQuestion { s with showResults := true })

/-- The states the room view can reach from the state loaded at mount. -/
def Reachable (s0 s : RoomState) : Prop :=
  Relation.ReflTransGen (fun a b => ∃ e, step a e b) s0 s

/-- Rank of a status along the `waiting → playing → finished` line. -/
def statusRank : GameStatus → Nat
  | GameStatus.waiting => 0
  | GameStatus.playing => 1
  | GameStatus.finished => 2

/-- The inductive invariant of the room view used below: the timer is
never negative, and in the waiting view the timer still holds its
initial value 15 and no answer has been given. -/
def Inv (s : RoomState) : Prop :=
  0 ≤ s.timeLeft ∧
    (s.gameStatus = GameStatus.waiting → s.timeLeft = 15 ∧ s.hasAnswered = false)

/-- The actionable controls of the waiting view of `TriviaRoom`. -/
inductive UIControl where
  | leaveButton
  | startGameButton
deriving Repr, DecidableEq

/-- `isHost` from `TriviaRoom.tsx`: `room.hostUserId === user.id`. -/
def isHost (r : Room) (u : User) : Bool :=
  r.hostUserId == u.id

/-- The buttons rendered in the waiting view: the Leave button in the
header, and the Start Game button exactly when `isHost` holds
(`{isHost && <Button onClick={startGame}>...}` in the JSX). -/
def waitingViewControls (r : Room) (u : User) : List UIControl :=
  [UIControl.leaveButton] ++ (if isHost r u then [UIControl.startGameButton] else [])

/-- The sorted copy built by the finished view and the sidebar:
`[...players].sort((a, b) => b.score - a.score)`, a stable sort putting
higher scores first. -/
def sortedPlayers (ps : List Player) : List Player :=
  ps.mergeSort (fun a b => b.score ≤ a.score)

/-- The winner shown on the podium of the finished view:
`sortedPlayers[0]`. -/
def winnerOf (ps : List Player) : Option Player :=
  (sortedPlayers ps).head?

/-- The score of the player record with the given id, if any. -/
def playerScore (l : List Player) (pid : String) : Option Int :=
  (l.find? (fun p => p.id == pid)).map Player.score

/-- The record store seen by the lobby. -/
structure Db where
  rooms : List Room
  players : List Player
deriving Repr, DecidableEq

/-- Result of a lobby action: the new store and the toasts shown. -/
structure LobbyResult where
  db : Db
  toasts : List Toast
deriving Repr, DecidableEq

/-- `createRoom` from `GameLobby.tsx`.  A blank (empty or
whitespace-only) name is rejected with a destructive toast before any
store access.  Otherwise a room record is created with status waiting
and question index 0 (`roomOk` is the outcome of that call), then the
creator is added as a player with score 0 (`playerOk` likewise); either
failure lands in the catch branch, which only shows a toast.  `roomId`,
`playerId` stand for the generated ids and `createdAt` for the
store-assigned timestamp. -/
def createRoom (name : String) (u : User) (roomId playerId createdAt : String)
    (roomOk playerOk : Bool) (db : Db) : LobbyResult :=
  if trimString name = "" then
    { db := db
      toasts := [{ title := "Error", description := "Please enter a room name", variant := "destructive" }] }
  else if roomOk then
    let room : Room :=
      { id := roomId, name := trimString name, hostUserId := u.id,
        status := GameStatus.waiting, currentQuestionIndex := 0, createdAt := createdAt }
    let db1 : Db := { db with rooms := db.rooms ++ [room] }
    if playerOk then
      let player : Player :=
        { id := playerId, roomId := roomId, userId := u.id,
          displayName := displayNameOf u, score := 0 }
      { db := { db1 with players := db1.players ++ [player] }
        toasts := [{ title := "Success!",
                     description := "Room \"" ++ name ++ "\" created successfully!",
                     variant := "default" }] }
    else
      { db := db1
        toasts := [{ title := "Error", description := "Failed to create room", variant := "destructive" }] }
  else
    { db := db
      toasts := [{ title := "Error", description := "Failed to create room", variant := "destructive" }] }

/-- `joinRoom` from `GameLobby.tsx`: list the player records matching
this room and user (limit 1); when none exists, create one with score
0.  `ok` is the outcome of the store calls; any failure lands in the
catch branch, which only shows a toast. -/
def joinRoom (r : Room) (u : User) (newId : String) (ok : Bool) (db : Db) : LobbyResult :=
  if ok then
    let matching := (db.players.filter (fun p => p.roomId == r.id && p.userId == u.id)).take 1
    if matching.length = 0 then
      let player : Player :=
        { id := newId, roomId := r.id, userId := u.id,
          displayName := displayNameOf u, score := 0 }
      { db := { db with players := db.players ++ [player] }
        toasts := [{ title := "Joined!",
                     description := "Welcome to \"" ++ r.name ++ "\"",
                     variant := "default" }] }
    else
      { db := db
        toasts := [{ title := "Joined!",
                     description := "Welcome to \"" ++ r.name ++ "\"",
                     variant := "default" }] }
  else
    { db := db
      toasts := [{ title := "Error", description := "Failed to join room", variant := "destructive" }] }

/-! ## Field preservation lemmas for the room-view handlers -/

lemma submitAnswer_gameStatus (s : RoomState) (a nid : String) (cOk uOk : Bool) :
    (submitAnswer s a nid cOk uOk).gameStatus = s.gameStatus := by
  unfold submitAnswer
  repeat first | rfl | split | dsimp only

lemma submitAnswer_timeLeft (s : RoomState) (a nid : String) (cOk uOk : Bool) :
    (submitAnswer s a nid cOk uOk).timeLeft = s.timeLeft := by
  unfold submitAnswer
  repeat first | rfl | split | dsimp only

lemma submitAnswer_questions (s : RoomState) (a nid : String) (cOk uOk : Bool) :
    (submitAnswer s a nid cOk uOk).questions = s.questions := by
  unfold submitAnswer
  repeat first | rfl | split | dsimp only

lemma submitAnswer_questionIndex (s : RoomState) (a nid : String) (cOk uOk : Bool) :
    (submitAnswer s a nid cOk uOk).questionIndex = s.questionIndex := by
  unfold submitAnswer
  repeat first | rfl | split | dsimp only

lemma nextQuestion_gameStatus (s : RoomState) :
    (nextQuestion s).gameStatus =
      if s.questions.length ≤ s.questionIndex + 1 then GameStatus.finished
      else s.gameStatus := by
  unfold nextQuestion
  by_cases h : s.questions.length ≤ s.questionIndex + 1 <;> simp [h]

lemma nextQuestion_hasAnswered (s : RoomState) :
    (nextQuestion s).hasAnswered =
      if s.questions.length ≤ s.questionIndex + 1 then s.hasAnswered else false := by
  unfold nextQuestion
  by_cases h : s.questions.length ≤ s.questionIndex + 1 <;> simp [h]

lemma nextQuestion_timeLeft (s : RoomState) :
    (nextQuestion s).timeLeft =
      if s.questions.length ≤ s.questionIndex + 1 then s.timeLeft else 15 := by
  unfold nextQuestion
  by_cases h : s.questions.length ≤ s.questionIndex + 1 <;> simp [h]

lemma nextQuestion_questionIndex (s : RoomState) :
    (nextQuestion s).questionIndex =
      if s.questions.length ≤ s.questionIndex + 1 then s.questionIndex
      else s.questionIndex + 1 := by
  unfold nextQuestion
  by_cases h : s.questions.length ≤ s.questionIndex + 1 <;> simp [h]

/-! ## The invariant holds at mount and is preserved by every step -/

lemma inv_init (u : User) (r : Room) (ps : List Player) (qs : List Question) :
    Inv (initState u r ps qs) := by
  constructor
  · norm_num [initState]
  · intro _
    exact ⟨rfl, rfl⟩

lemma inv_step {s s' : RoomState} {e : Event} (h : step s e s') (hs : Inv s) : Inv s' := by
  obtain ⟨htime, hwait⟩ := hs
  cases h with
  | start ok hw =>
    cases ok with
    | true =>
      refine ⟨by norm_num [startGameRun], ?_⟩
      intro hcontra
      simp [startGameRun] at hcontra
    | false =>
      exact ⟨htime, hwait⟩
  | tick hp ht ha =>
    refine ⟨by simp only [tickRun]; omega, ?_⟩
    intro hcontra
    simp only [tickRun] at hcontra
    rw [hp] at hcontra
    exact absurd hcontra (by simp)
  | submit answer newId createOk updateOk hp =>
    refine ⟨by rw [submitAnswer_timeLeft]; exact htime, ?_⟩
    intro hcontra
    rw [submitAnswer_gameStatus, hp] at hcontra
    exact absurd hcontra (by simp)
  | expire ht ha =>
    refine ⟨?_, ?_⟩
    · rw [nextQuestion_timeLeft]
      split
      · exact htime
      · norm_num
    · intro hw
      rw [nextQuestion_gameStatus] at hw
      rw [nextQuestion_timeLeft, nextQuestion_hasAnswered]
      split at hw
      · exact absurd hw (by simp)
      · simp only [hw]
        split
        · simp_all
        · exact ⟨rfl, rfl⟩
  | afterAnswer ha =>
    refine ⟨?_, ?_⟩
    · rw [nextQuestion_timeLeft]
      split
      · exact htime
      · norm_num
    · intro hw
      rw [nextQuestion_gameStatus] at hw
      rw [nextQuestion_timeLeft, nextQuestion_hasAnswered]
      split at hw
      · exact absurd hw (by simp)
      · simp only [hw]
        split
        · simp_all
        · exact ⟨rfl, rfl⟩

lemma inv_reachable {s0 s : RoomState} (h0 : Inv s0) (h : Reachable s0 s) : Inv s := by
  induction h with
  | refl => exact h0
  | tail _ hstep ih =>
    obtain ⟨e, he⟩ := hstep
    exact inv_step he ih

lemma startGameRun_hasAnswered (s : RoomState) (ok : Bool) :
    (startGameRun s ok).state.hasAnswered = s.hasAnswered := by
  cases ok <;> rfl

lemma submitAnswer_of_hasAnswered (s : RoomState) (a nid : String) (cOk uOk : Bool)
    (h : s.hasAnswered = true) : submitAnswer s a nid cOk uOk = s := by
  unfold submitAnswer
  simp [h]

lemma submitAnswer_of_noQuestion (s : RoomState) (a nid : String) (cOk uOk : Bool)
    (h : s.currentQuestion = none) : submitAnswer s a nid cOk uOk = s := by
  unfold submitAnswer
  simp [h]

lemma submitAnswer_hasAnswered_of (s : RoomState) (a nid : String) (cOk uOk : Bool)
    (q : Question) (hna : s.hasAnswered = false) (hq : s.currentQuestion = some q) :
    (submitAnswer s a nid cOk uOk).hasAnswered = true := by
  unfold submitAnswer
  simp [hna, hq]
  repeat first | rfl | split | dsimp only

lemma submitAnswer_answers_of (s : RoomState) (a nid : String) (uOk : Bool)
    (q : Question) (hna : s.hasAnswered = false) (hq : s.currentQuestion = some q) :
    (submitAnswer s a nid true uOk).answers =
      { id := nid, roomId := s.room.id, userId := s.user.id, questionId := q.id,
        selectedAnswer := a, isCorrect := a == q.correctAnswer } :: s.answers := by
  unfold submitAnswer
  simp [hna, hq]
  repeat first | rfl | split | dsimp only

/-! ## Claim theorems -/

/-- C5: the Start Game action of the waiting view is offered exactly to
the user whose id equals the room's `hostUserId`; a non-host user's
waiting screen has no control invoking `startGame`. -/
theorem startGame_only_for_host (r : Room) (u : User) :
    UIControl.startGameButton ∈ waitingViewControls r u ↔ r.hostUserId = u.id := by
  unfold waitingViewControls isHost
  by_cases h : r.hostUserId = u.id <;> simp [h]

/-- C6: when the room update of `startGame` fails, the handler leaves
the whole local component state unchanged, emits exactly one
destructive toast, and makes no further update attempt. -/
theorem startGame_failure_toast_only (s : RoomState) :
    (startGameRun s false).state = s ∧
    (startGameRun s false).toasts =
      [{ title := "Error", description := "Failed to start game", variant := "destructive" }] ∧
    (startGameRun s false).updateAttempts =
      [{ roomId := s.room.id, status := GameStatus.playing, currentQuestionIndex := 0 }] :=
  ⟨rfl, rfl, rfl⟩

/-- C4: `submitAnswer` is not guarded against timer expiry.  Whenever
the player has not answered and a current question exists the answer is
recorded, with no condition on `timeLeft` (in particular at
`timeLeft = 0`), and the handler returns without recording exactly when
the player has answered or the current question is missing. -/
theorem submitAnswer_ignores_timer (s : RoomState) (a nid : String) (uOk : Bool) :
    (s.hasAnswered = false → ∀ q, s.currentQuestion = some q →
      (submitAnswer s a nid true uOk).answers =
        { id := nid, roomId := s.room.id, userId := s.user.id, questionId := q.id,
          selectedAnswer := a, isCorrect := a == q.correctAnswer } :: s.answers) ∧
    (submitAnswer s a nid true uOk = s ↔ (s.hasAnswered = true ∨ s.currentQuestion = none)) := by
  constructor
  · intro hna q hq
    exact submitAnswer_answers_of s a nid uOk q hna hq
  · constructor
    · intro heq
      by_contra hcon
      push_neg at hcon
      obtain ⟨hna, hq⟩ := hcon
      have hna' : s.hasAnswered = false := by
        cases h : s.hasAnswered
        · rfl
        · exact absurd h hna
      obtain ⟨q, hq'⟩ := Option.ne_none_iff_exists'.mp hq
      have := submitAnswer_hasAnswered_of s a nid true uOk q hna' hq'
      rw [heq, hna'] at this
      exact absurd this (by simp)
    · intro h
      cases h with
      | inl h => exact submitAnswer_of_hasAnswered s a nid true uOk h
      | inr h => exact submitAnswer_of_noQuestion s a nid true uOk h

/-- C10: each client answers at most once per question.  A call with
`hasAnswered` set returns the state unchanged (no record, no score
write); a first call for a present question sets `hasAnswered`; and the
only step that resets `hasAnswered` from true to false is the
post-answer `nextQuestion` advancing to a further question. -/
theorem submitAnswer_at_most_once (s : RoomState) (a nid : String) (cOk uOk : Bool) :
    (s.hasAnswered = true → submitAnswer s a nid cOk uOk = s) ∧
    (s.hasAnswered = false → ∀ q, s.currentQuestion = some q →
      (submitAnswer s a nid cOk uOk).hasAnswered = true) ∧
    (∀ (e : Event) (t : RoomState), step s e t →
      s.hasAnswered = true → t.hasAnswered = false →
      e = Event.afterAnswer ∧ t.questionIndex = s.questionIndex + 1 ∧
      s.questionIndex + 1 < s.questions.length) := by
  refine ⟨fun h => submitAnswer_of_hasAnswered s a nid cOk uOk h,
    fun hna q hq => submitAnswer_hasAnswered_of s a nid cOk uOk q hna hq, ?_⟩
  intro e t hstep hA hA'
  cases hstep with
  | start ok hw =>
    rw [startGameRun_hasAnswered, hA] at hA'
    exact absurd hA' (by simp)
  | tick hp ht ha =>
    rw [hA] at ha
    exact absurd ha (by simp)
  | submit answer newId createOk updateOk hp =>
    rw [submitAnswer_of_hasAnswered s answer newId createOk updateOk hA, hA] at hA'
    exact absurd hA' (by simp)
  | expire ht ha =>
    rw [hA] at ha
    exact absurd ha (by simp)
  | afterAnswer ha =>
    rw [nextQuestion_hasAnswered] at hA'
    by_cases hfin : s.questions.length ≤ s.questionIndex + 1
    · rw [if_pos hfin] at hA'
      rw [hA] at hA'
      exact absurd hA' (by simp)
    · refine ⟨rfl, ?_, by omega⟩
      rw [nextQuestion_questionIndex]
      simp [hfin]

/-- C3: the countdown is set to 15 by a successful `startGame` and by
every advancing `nextQuestion`, a scheduled tick decrements it by
exactly one, and on every reachable state it is never negative. -/
theorem countdown_timer (u : User) (r : Room) (ps : List Player) (qs : List Question)
    (s t : RoomState) :
    (startGameRun s true).state.timeLeft = 15 ∧
    (s.questionIndex + 1 < s.questions.length → (nextQuestion s).timeLeft = 15) ∧
    (s.gameStatus = GameStatus.playing → s.hasAnswered = false → 0 < s.timeLeft →
      (tickRun s).timeLeft = s.timeLeft - 1) ∧
    (Reachable (initState u r ps qs) t → 0 ≤ t.timeLeft) := by
  refine ⟨rfl, ?_, fun _ _ _ => rfl, ?_⟩
  · intro h
    rw [nextQuestion_timeLeft, if_neg (by omega)]
  · intro hreach
    exact (inv_reachable (inv_init u r ps qs) hreach).1

lemma machine_shape_of_same (s t : RoomState) (e : Event)
    (h : t.gameStatus = s.gameStatus) :
    statusRank s.gameStatus ≤ statusRank t.gameStatus ∧
    ¬(s.gameStatus = GameStatus.waiting ∧ t.gameStatus = GameStatus.finished) ∧
    (s.gameStatus = GameStatus.waiting → t.gameStatus ≠ GameStatus.waiting →
      t.gameStatus = GameStatus.playing ∧ ∃ ok, e = Event.start ok) ∧
    (s.gameStatus = GameStatus.playing → t.gameStatus ≠ GameStatus.playing →
      t.gameStatus = GameStatus.finished ∧ s.questions.length ≤ s.questionIndex + 1 ∧
      (e = Event.expire ∨ e = Event.afterAnswer)) := by
  rw [h]
  refine ⟨le_refl _, ?_, ?_, ?_⟩
  · rintro ⟨h1, h2⟩
    rw [h1] at h2
    exact absurd h2 (by simp)
  · intro h1 h2
    exact absurd h1 h2
  · intro h1 h2
    exact absurd h1 h2

/-- C2: the room view status follows the linear machine
`waiting → playing → finished`: it is waiting at mount, a reachable
step leaves waiting only for playing and only through `startGame`,
leaves playing only for finished and only through `nextQuestion` when
the advanced index reaches the number of loaded questions, and no step
moves the status backwards or jumps from waiting to finished. -/
theorem status_linear_machine (u : User) (r : Room) (ps : List Player) (qs : List Question)
    (s t : RoomState) (e : Event)
    (hreach : Reachable (initState u r ps qs) s) (hstep : step s e t) :
    (initState u r ps qs).gameStatus = GameStatus.waiting ∧
    statusRank s.gameStatus ≤ statusRank t.gameStatus ∧
    ¬(s.gameStatus = GameStatus.waiting ∧ t.gameStatus = GameStatus.finished) ∧
    (s.gameStatus = GameStatus.waiting → t.gameStatus ≠ GameStatus.waiting →
      t.gameStatus = GameStatus.playing ∧ ∃ ok, e = Event.start ok) ∧
    (s.gameStatus = GameStatus.playing → t.gameStatus ≠ GameStatus.playing →
      t.gameStatus = GameStatus.finished ∧ s.questions.length ≤ s.questionIndex + 1 ∧
      (e = Event.expire ∨ e = Event.afterAnswer)) := by
  obtain ⟨htime, hwait⟩ := inv_reachable (inv_init u r ps qs) hreach
  refine ⟨rfl, ?_⟩
  cases hstep with
  | start ok hw =>
    cases ok with
    | true =>
      have ht : (startGameRun s true).state.gameStatus = GameStatus.playing := rfl
      rw [hw, ht]
      refine ⟨by simp [statusRank], by simp, fun _ _ => ⟨rfl, ⟨true, rfl⟩⟩, ?_⟩
      intro h1
      exact absurd h1 (by simp)
    | false =>
      exact machine_shape_of_same s _ _ rfl
  | tick hp ht ha =>
    exact machine_shape_of_same s _ _ rfl
  | submit answer newId createOk updateOk hp =>
    exact machine_shape_of_same s _ _ (submitAnswer_gameStatus s answer newId createOk updateOk)
  | expire ht ha =>
    have hnw : s.gameStatus ≠ GameStatus.waiting := by
      intro hw
      obtain ⟨h15, _⟩ := hwait hw
      rw [h15] at ht
      exact absurd ht (by norm_num)
    by_cases hfin : s.questions.length ≤ s.questionIndex + 1
    · have hts : (nextQuestion { s with showResults := true }).gameStatus = GameStatus.finished := by
        rw [nextQuestion_gameStatus, if_pos hfin]
      rw [hts]
      refine ⟨?_, by simp [hnw], ?_, ?_⟩
      · cases hs : s.gameStatus with
        | waiting => exact absurd hs hnw
        | playing => simp [statusRank]
        | finished => simp [statusRank]
      · intro h1
        exact absurd h1 hnw
      · intro _ _
        exact ⟨rfl, hfin, Or.inl rfl⟩
    · refine machine_shape_of_same s _ _ ?_
      rw [nextQuestion_gameStatus, if_neg hfin]
  | afterAnswer ha =>
    have hnw : s.gameStatus ≠ GameStatus.waiting := by
      intro hw
      obtain ⟨_, hfalse⟩ := hwait hw
      rw [ha] at hfalse
      exact absurd hfalse (by simp)
    by_cases hfin : s.questions.length ≤ s.questionIndex + 1
    · have hts : (nextQuestion { s with showResults := true }).gameStatus = GameStatus.finished := by
        rw [nextQuestion_gameStatus, if_pos hfin]
      rw [hts]
      refine ⟨?_, by simp [hnw], ?_, ?_⟩
      · cases hs : s.gameStatus with
        | waiting => exact absurd hs hnw
        | playing => simp [statusRank]
        | finished => simp [statusRank]
      · intro h1
        exact absurd h1 hnw
      · intro _ _
        exact ⟨rfl, hfin, Or.inr rfl⟩
    · refine machine_shape_of_same s _ _ ?_
      rw [nextQuestion_gameStatus, if_neg hfin]

/-- C7: the finished screen sorts the loaded players by score in
descending order (a permutation of the loaded list), and the displayed
winner is the first element of that sorted list, whose score is maximal
among the loaded players. -/
theorem finished_leaderboard (ps : List Player) :
    (sortedPlayers ps).Perm ps ∧
    List.Sorted (fun a b : Player => b.score ≤ a.score) (sortedPlayers ps) ∧
    winnerOf ps = (sortedPlayers ps).head? ∧
    (∀ w, winnerOf ps = some w → ∀ p ∈ ps, p.score ≤ w.score) := by
  have hperm : (sortedPlayers ps).Perm ps := List.mergeSort_perm ps _
  have hsorted : List.Sorted (fun a b : Player => b.score ≤ a.score) (sortedPlayers ps) := by
    have h : List.Pairwise (fun a b : Player => (decide (b.score ≤ a.score)) = true)
        (sortedPlayers ps) :=
      List.sorted_mergeSort
        (fun a b c h1 h2 => by
          simp only [decide_eq_true_eq] at h1 h2 ⊢
          exact le_trans h2 h1)
        (fun a b => by
          simp only [Bool.or_eq_true, decide_eq_true_eq]
          exact le_total b.score a.score)
        ps
    exact h.imp (fun hab => of_decide_eq_true hab)
  refine ⟨hperm, hsorted, rfl, ?_⟩
  intro w hw p hp
  have hmem : p ∈ sortedPlayers ps := hperm.mem_iff.mpr hp
  unfold winnerOf at hw
  cases hsp : sortedPlayers ps with
  | nil =>
    rw [hsp] at hw
    exact absurd hw (by simp)
  | cons x rest =>
    rw [hsp] at hw hmem
    simp only [List.head?_cons, Option.some.injEq] at hw
    rw [hsp] at hsorted
    rcases List.mem_cons.mp hmem with hpx | hpr
    · rw [hpx, hw]
    · rw [← hw]
      exact (List.pairwise_cons.mp hsorted).1 p hpr

lemma joinRoom_db_eq (r : Room) (u : User) (nid : String) (db : Db) :
    (joinRoom r u nid true db).db =
      if db.players.filter (fun p => p.roomId == r.id && p.userId == u.id) = [] then
        { db with players := db.players ++
            [{ id := nid, roomId := r.id, userId := u.id,
               displayName := displayNameOf u, score := 0 }] }
      else db := by
  by_cases h : db.players.filter (fun p => p.roomId == r.id && p.userId == u.id) = []
  · simp [joinRoom, h]
  · have hl : (db.players.filter (fun p => p.roomId == r.id && p.userId == u.id)).length ≠ 0 :=
      fun hh => h (List.length_eq_zero.mp hh)
    simp only [joinRoom, if_true, List.length_take]
    rw [if_neg (by omega), if_neg h]

/-- C8: joining a room is idempotent on the player records.  When a
record for this room and user already exists, `joinRoom` creates
nothing, and joining the same room twice leaves exactly the records
that joining once leaves. -/
theorem joinRoom_idempotent (r : Room) (u : User) (id1 id2 : String) (db : Db) :
    ((∃ p ∈ db.players, p.roomId = r.id ∧ p.userId = u.id) →
      (joinRoom r u id1 true db).db = db) ∧
    (joinRoom r u id2 true (joinRoom r u id1 true db).db).db =
      (joinRoom r u id1 true db).db := by
  have hmatch : ∀ (db' : Db), (∃ p ∈ db'.players, p.roomId = r.id ∧ p.userId = u.id) →
      db'.players.filter (fun p => p.roomId == r.id && p.userId == u.id) ≠ [] := by
    rintro db' ⟨p, hmem, h1, h2⟩ hnil
    have hpf : p ∈ db'.players.filter (fun p => p.roomId == r.id && p.userId == u.id) := by
      rw [List.mem_filter]
      exact ⟨hmem, by simp [h1, h2]⟩
    rw [hnil] at hpf
    exact absurd hpf (by simp)
  constructor
  · intro hex
    rw [joinRoom_db_eq, if_neg (hmatch db hex)]
  · by_cases h : db.players.filter (fun p => p.roomId == r.id && p.userId == u.id) = []
    · have h1 : (joinRoom r u id1 true db).db =
          { db with players := db.players ++
              [{ id := id1, roomId := r.id, userId := u.id,
                 displayName := displayNameOf u, score := 0 }] } := by
        rw [joinRoom_db_eq, if_pos h]
      have hex2 : ∃ p ∈ (joinRoom r u id1 true db).db.players,
          p.roomId = r.id ∧ p.userId = u.id := by
        rw [h1]
        refine ⟨{ id := id1, roomId := r.id, userId := u.id,
                  displayName := displayNameOf u, score := 0 }, by simp, rfl, rfl⟩
      rw [joinRoom_db_eq, if_neg (hmatch _ hex2)]
    · have h1 : (joinRoom r u id1 true db).db = db := by
        rw [joinRoom_db_eq, if_neg h]
      rw [h1, joinRoom_db_eq, if_neg h]

/-- C9: `createRoom` rejects a blank name before any store access,
with a single destructive toast and no record created; with a
non-blank name the created room has status waiting and question index
0, and the creator is added as a player with score 0. -/
theorem createRoom_blank_guard (name : String) (u : User) (rid pid created : String) (db : Db) :
    (trimString name = "" → ∀ (roomOk playerOk : Bool),
      createRoom name u rid pid created roomOk playerOk db =
        { db := db
          toasts := [{ title := "Error", description := "Please enter a room name",
                       variant := "destructive" }] }) ∧
    (trimString name ≠ "" →
      (createRoom name u rid pid created true true db).db.rooms =
        db.rooms ++ [{ id := rid, name := trimString name, hostUserId := u.id,
                       status := GameStatus.waiting, currentQuestionIndex := 0,
                       createdAt := created }] ∧
      (createRoom name u rid pid created true true db).db.players =
        db.players ++ [{ id := pid, roomId := rid, userId := u.id,
                         displayName := displayNameOf u, score := 0 }]) := by
  constructor
  · intro h roomOk playerOk
    unfold createRoom
    rw [if_pos h]
  · intro h
    unfold createRoom
    rw [if_neg h]
    exact ⟨rfl, rfl⟩

/-- C1 (amended): a first submission for a present question records a
game answer whose `isCorrect` equals the comparison of the submitted
key with the question's `correctAnswer`; on a correct answer the
remote record of the player found in the local snapshot has its score
set to the snapshot score plus 100 (an increase of exactly 100 only
while the remote score still equals the snapshot, e.g. on the first
correct answer after load); on an incorrect answer the remote player
records are unchanged. -/
theorem submitAnswer_scoring (s : RoomState) (a nid : String) (q : Question) (cp : Player)
    (hna : s.hasAnswered = false) (hq : s.currentQuestion = some q)
    (hcp : s.players.find? (fun p => p.userId == s.user.id) = some cp) :
    (submitAnswer s a nid true true).answers =
      { id := nid, roomId := s.room.id, userId := s.user.id, questionId := q.id,
        selectedAnswer := a, isCorrect := a == q.correctAnswer } :: s.answers ∧
    (a = q.correctAnswer →
      (submitAnswer s a nid true true).dbPlayers =
        s.dbPlayers.map (fun p =>
          if p.id == cp.id then { p with score := cp.score + 100 } else p)) ∧
    (a ≠ q.correctAnswer → (submitAnswer s a nid true true).dbPlayers = s.dbPlayers) := by
  refine ⟨submitAnswer_answers_of s a nid true q hna hq, ?_, ?_⟩
  · intro hc
    have hb : (a == q.correctAnswer) = true := beq_iff_eq.mpr hc
    unfold submitAnswer
    simp [hna, hq, hb, hcp]
  · intro hc
    have hb : (a == q.correctAnswer) = false := beq_eq_false_iff_ne.mpr hc
    unfold submitAnswer
    simp [hna, hq, hb]

/-! ## A concrete play-through used by the counterexample and witnesses -/

/-- A demo user. -/
def demoUser : User :=
  { id := "u1", email := "alice@example.com", displayName := some "Alice" }

/-- A demo room hosted by the demo user. -/
def demoRoom : Room :=
  { id := "r1", name := "Demo Room", hostUserId := "u1",
    status := GameStatus.waiting, currentQuestionIndex := 0, createdAt := "t0" }

/-- The demo user's player record, score 0 at load time. -/
def demoPlayer : Player :=
  { id := "p1", roomId := "r1", userId := "u1", displayName := "Alice", score := 0 }

/-- First demo question; the correct key is A. -/
def demoQ1 : Question :=
  { id := "q1", question := "1 + 1 ?", optionA := "2", optionB := "3",
    optionC := "4", optionD := "5", correctAnswer := "A",
    category := "math", difficulty := "easy" }

/-- Second demo question; the correct key is A. -/
def demoQ2 : Question :=
  { id := "q2", question := "2 + 2 ?", optionA := "4", optionB := "5",
    optionC := "6", optionD := "7", correctAnswer := "A",
    category := "math", difficulty := "easy" }

/-- The room view state at mount for the demo game. -/
def demoInit : RoomState :=
  initState demoUser demoRoom [demoPlayer] [demoQ1, demoQ2]

/-- After the host starts the game. -/
def demoS1 : RoomState := (startGameRun demoInit true).state

/-- After a correct answer to the first question. -/
def demoS2 : RoomState := submitAnswer demoS1 "A" "a1" true true

/-- After the post-answer advance to the second question. -/
def demoS3 : RoomState := nextQuestion { demoS2 with showResults := true }

/-- C1 (counterexample): in the demo play-through, the second correct
submission is made by a player who has not yet answered the current
question, yet it leaves the remote player records — and hence the
submitting player's score, still 100 from the first question — entirely
unchanged, because `submitAnswer` writes the stale snapshot score plus
100 rather than incrementing the remote score. -/
theorem submitAnswer_score_not_incremented :
    Reachable demoInit demoS3 ∧
    demoS3.hasAnswered = false ∧
    demoS3.currentQuestion = some demoQ2 ∧
    "A" = demoQ2.correctAnswer ∧
    playerScore demoS3.dbPlayers "p1" = some 100 ∧
    (submitAnswer demoS3 "A" "a2" true true).dbPlayers = demoS3.dbPlayers := by
  refine ⟨?_, by decide, by decide, by decide, by decide, by decide⟩
  have h1 : step demoInit (Event.start true) demoS1 :=
    step.start demoInit true rfl
  have h2 : step demoS1 (Event.submit "A" "a1" true true) demoS2 :=
    step.submit demoS1 "A" "a1" true true rfl
  have h3 : step demoS2 Event.afterAnswer demoS3 :=
    step.afterAnswer demoS2 (by decide)
  exact Relation.ReflTransGen.tail
    (Relation.ReflTransGen.tail (Relation.ReflTransGen.single ⟨_, h1⟩) ⟨_, h2⟩) ⟨_, h3⟩

/-- The demo game state with the countdown expired, used to witness
that `submitAnswer` still records at `timeLeft = 0`. -/
def demoTimeUp : RoomState := { demoS1 with timeLeft := 0 }

/-- A second demo player with a higher score, for the leaderboard. -/
def demoP2 : Player :=
  { id := "p2", roomId := "r1", userId := "u2", displayName := "Bob", score := 250 }

/-- A demo lobby database already containing the demo player. -/
def demoDb : Db := { rooms := [demoRoom], players := [demoPlayer] }

/-- Witness for C1: a concrete incorrect first submission leaves the
remote player records unchanged. -/
theorem submitAnswer_scoring_witness :
    (submitAnswer demoS1 "B" "w1" true true).dbPlayers = demoS1.dbPlayers :=
  (submitAnswer_scoring demoS1 "B" "w1" demoQ1 demoPlayer
    (by decide) (by decide) (by decide)).2.2 (by decide)

/-- Witness for C2: a concrete reachable start step does not jump from
waiting to finished. -/
theorem status_linear_machine_witness :
    ¬(demoInit.gameStatus = GameStatus.waiting ∧ demoS1.gameStatus = GameStatus.finished) :=
  (status_linear_machine demoUser demoRoom [demoPlayer] [demoQ1, demoQ2]
    demoInit demoS1 (Event.start true) Relation.ReflTransGen.refl
    (step.start demoInit true rfl)).2.2.1

/-- Witness for C3: at the concrete started state the tick decrements
the timer by one and the reachable timer is non-negative. -/
theorem countdown_timer_witness :
    (tickRun demoS1).timeLeft = demoS1.timeLeft - 1 ∧ 0 ≤ demoS1.timeLeft :=
  ⟨(countdown_timer demoUser demoRoom [demoPlayer] [demoQ1, demoQ2] demoS1 demoS1).2.2.1
      (by decide) (by decide) (by decide),
    (countdown_timer demoUser demoRoom [demoPlayer] [demoQ1, demoQ2] demoS1 demoS1).2.2.2
      (Relation.ReflTransGen.single ⟨Event.start true, step.start demoInit true rfl⟩)⟩

/-- Witness for C4: with the countdown at 0 a submission is still
recorded. -/
theorem submitAnswer_ignores_timer_witness :
    demoTimeUp.timeLeft = 0 ∧
    (submitAnswer demoTimeUp "B" "w2" true true).answers =
      ({ id := "w2", roomId := demoTimeUp.room.id, userId := demoTimeUp.user.id,
         questionId := demoQ1.id, selectedAnswer := "B",
         isCorrect := "B" == demoQ1.correctAnswer } : GameAnswer) :: demoTimeUp.answers :=
  ⟨rfl, (submitAnswer_ignores_timer demoTimeUp "B" "w2" true).1 (by decide) demoQ1 (by decide)⟩

/-- Witness for C7: on a concrete two-player list the winner has
maximal score. -/
theorem finished_leaderboard_witness :
    winnerOf [demoPlayer, demoP2] = some demoP2 ∧ demoPlayer.score ≤ demoP2.score :=
  ⟨by simp [winnerOf, sortedPlayers, List.mergeSort, demoPlayer, demoP2],
    (finished_leaderboard [demoPlayer, demoP2]).2.2.2 demoP2
      (by simp [winnerOf, sortedPlayers, List.mergeSort, demoPlayer, demoP2]) demoPlayer (by decide)⟩

/-- Witness for C8: joining a room that already holds the user's player
record leaves the database unchanged. -/
theorem joinRoom_idempotent_witness :
    (joinRoom demoRoom demoUser "px" true demoDb).db = demoDb :=
  (joinRoom_idempotent demoRoom demoUser "px" "py" demoDb).1
    ⟨demoPlayer, by decide, rfl, rfl⟩

/-- Witness for C9: a whitespace-only name is rejected without writes,
and a real name adds the creator as a player with score 0. -/
theorem createRoom_blank_guard_witness :
    createRoom "   " demoUser "rX" "pX" "t1" true false demoDb =
      { db := demoDb
        toasts := [{ title := "Error", description := "Please enter a room name",
                     variant := "destructive" }] } ∧
    (createRoom "Fun Night" demoUser "rX" "pX" "t1" true true demoDb).db.players =
      demoDb.players ++ [{ id := "pX", roomId := "rX", userId := demoUser.id,
                           displayName := displayNameOf demoUser, score := 0 }] :=
  ⟨(createRoom_blank_guard "   " demoUser "rX" "pX" "t1" demoDb).1 (by decide) true false,
    ((createRoom_blank_guard "Fun Night" demoUser "rX" "pX" "t1" demoDb).2 (by decide)).2⟩

/-- Witness for C10: a repeated submission after answering returns the
state unchanged. -/
theorem submitAnswer_at_most_once_witness :
    submitAnswer demoS2 "B" "w3" true true = demoS2 :=
  (submitAnswer_at_most_once demoS2 "B" "w3" true true).1 (by decide)

end Trivia
